import Mathlib

/-!
Verification development for the fusion-monad-bridge repository.

The on-chain contracts (HTLC.sol, MonadHTLC.sol, MonadBridge.sol,
FusionMonadAdapter.sol) and the backend services (resolver, event monitor)
are shallowly embedded as executable Lean functions.  Addresses and 32-byte
words are modelled as `Nat` (0 is the zero address / zero word); the hash
functions (sha256, keccak256) are EVM primitives external to the repository
and are passed as explicit function parameters.
-/

namespace FMB

abbrev Address := Nat
abbrev Word := Nat

/-- A value transfer performed by a contract call. -/
structure Transfer where
  dest : Address
  amount : Nat
deriving DecidableEq, Repr

/-! ## Ethereum HTLC (HTLC.sol)

Embedding of the single-instance `HTLC` contract: immutable
`sender/receiver/hashlock/timelock/token`, mutable `lockedAmount/state`. -/

inductive HState where
  | Empty
  | Locked
  | Claimed
  | Refunded
deriving DecidableEq, Repr

structure EthHTLC where
  sender : Address
  receiver : Address
  hashlock : Word
  timelock : Nat
  token : Address
  lockedAmount : Nat
  state : HState
deriving DecidableEq, Repr

inductive EthEvent where
  | Locked (sender receiver : Address) (amount : Nat) (token : Address)
  | Claimed (receiver : Address) (secret : Word)
  | Refunded (sender : Address)
deriving DecidableEq, Repr

/-- Embeds `HTLC.claim(secret)`: reverts unless `state == Locked` and
`sha256(abi.encodePacked(secret)) == hashlock`; then marks the contract
Claimed, zeroes `lockedAmount`, pays the stored receiver and emits
`Claimed(receiver, secret)`.  The code reads neither `msg.sender` nor
`block.timestamp`; both are still parameters of the embedding so that the
absence of those checks can be stated. -/
def EthHTLC.claim (sha256p : Word → Word) (h : EthHTLC) (caller : Address)
    (now : Nat) (secret : Word) : Except String (EthHTLC × Transfer × EthEvent) :=
  if h.state ≠ HState.Locked then .error "NotLocked"
  else if sha256p secret ≠ h.hashlock then .error "WrongHashlock"
  else .ok ({ h with state := HState.Claimed, lockedAmount := 0 },
            ⟨h.receiver, h.lockedAmount⟩,
            EthEvent.Claimed h.receiver secret)

/-- Embeds `HTLC.refund()`: reverts unless `state == Locked` and
`block.timestamp >= timelock`; pays the stored sender back. -/
def EthHTLC.refund (h : EthHTLC) (now : Nat) :
    Except String (EthHTLC × Transfer × EthEvent) :=
  if h.state ≠ HState.Locked then .error "NotLocked"
  else if now < h.timelock then .error "TimelockNotExpired"
  else .ok ({ h with state := HState.Refunded, lockedAmount := 0 },
            ⟨h.sender, h.lockedAmount⟩,
            EthEvent.Refunded h.sender)

/-! ## MonadHTLC (MonadBridge.sol, contract MonadHTLC)

Mapping-based HTLC: `contracts : mapping(bytes32 => HTLCData)`; an absent
key reads as the all-zero struct, and `_contractExists` tests
`sender != address(0)`. -/

structure HTLCData where
  sender : Address
  receiver : Address
  token : Address
  amount : Nat
  hashlock : Word
  timelock : Nat
  withdrawn : Bool
  refunded : Bool
  createdAt : Nat
deriving DecidableEq, Repr

def HTLCData.zero : HTLCData :=
  ⟨0, 0, 0, 0, 0, 0, false, false, 0⟩

structure MonadHTLCState where
  contracts : List (Word × HTLCData)
deriving DecidableEq, Repr

def MonadHTLCState.getContract (st : MonadHTLCState) (cid : Word) : HTLCData :=
  match st.contracts.lookup cid with
  | some d => d
  | none => HTLCData.zero

def MonadHTLCState.setContract (st : MonadHTLCState) (cid : Word)
    (d : HTLCData) : MonadHTLCState :=
  ⟨(cid, d) :: st.contracts.filter (fun kv => kv.1 ≠ cid)⟩

/-- Embeds `_contractExists`: the stored sender is nonzero. -/
def MonadHTLCState.contractExists (st : MonadHTLCState) (cid : Word) : Bool :=
  (st.getContract cid).sender ≠ 0

inductive MonadEvent where
  | HTLCCreated (cid : Word) (sender receiver token : Address) (amount : Nat)
      (hashlock : Word) (timelock : Nat)
  | HTLCWithdrawn (cid : Word) (secret : Word)
  | HTLCRefunded (cid : Word)
deriving DecidableEq, Repr

/-- Embeds `MonadHTLC.newContract` (native): modifiers `fundsSent`,
`futureTimelock`; the contract id is `keccak256(abi.encodePacked(sender,
receiver, value, hashlock, timelock, timestamp))`, supplied here as the
function parameter `cidOf`. -/
def MonadHTLCState.newContract
    (cidOf : Address → Address → Nat → Word → Nat → Nat → Word)
    (st : MonadHTLCState) (caller : Address) (msgValue : Nat)
    (receiver : Address) (hashlock : Word) (timelock : Nat) (now : Nat) :
    Except String (MonadHTLCState × Word × MonadEvent) :=
  if msgValue = 0 then .error "funds must be sent"
  else if ¬ timelock > now then .error "timelock time must be in the future"
  else
    let cid := cidOf caller receiver msgValue hashlock timelock now
    if st.contractExists cid then .error "contract already exists"
    else
      .ok (st.setContract cid
             ⟨caller, receiver, 0, msgValue, hashlock, timelock, false, false, now⟩,
           cid,
           MonadEvent.HTLCCreated cid caller receiver 0 msgValue hashlock timelock)

/-- Embeds `MonadHTLC.newContractERC20`: modifier `futureTimelock`, then the
amount/token requires; the ERC20 `transferFrom` into the contract is an
external call assumed to succeed. -/
def MonadHTLCState.newContractERC20
    (cidOf20 : Address → Address → Address → Nat → Word → Nat → Nat → Word)
    (st : MonadHTLCState) (caller : Address) (receiver : Address)
    (hashlock : Word) (timelock : Nat) (token : Address) (amount : Nat)
    (now : Nat) : Except String (MonadHTLCState × Word × MonadEvent) :=
  if ¬ timelock > now then .error "timelock time must be in the future"
  else if amount = 0 then .error "token amount must be greater than 0"
  else if token = 0 then .error "token address cannot be zero"
  else
    let cid := cidOf20 caller receiver token amount hashlock timelock now
    if st.contractExists cid then .error "contract already exists"
    else
      .ok (st.setContract cid
             ⟨caller, receiver, token, amount, hashlock, timelock, false, false, now⟩,
           cid,
           MonadEvent.HTLCCreated cid caller receiver token amount hashlock timelock)

/-- Embeds `MonadHTLC.withdraw(contractId, secret)`: modifiers `contractExists`,
`hashlockMatches` (`hashlock == keccak256(abi.encodePacked(secret))`) and
`withdrawable` (caller is receiver, not yet withdrawn, `timelock >
block.timestamp`); note the code does not test the `refunded` flag.  On
success it marks the contract withdrawn, pays the receiver and emits
`HTLCWithdrawn(contractId, secret)`. -/
def MonadHTLCState.withdraw (keccakW : Word → Word) (st : MonadHTLCState)
    (cid : Word) (secret : Word) (caller : Address) (now : Nat) :
    Except String (MonadHTLCState × Transfer × MonadEvent) :=
  if ¬ st.contractExists cid then .error "contract does not exist"
  else if (st.getContract cid).hashlock ≠ keccakW secret then
    .error "hashlock hash does not match"
  else if (st.getContract cid).receiver ≠ caller then
    .error "withdrawable: not receiver"
  else if (st.getContract cid).withdrawn then
    .error "withdrawable: already withdrawn"
  else if ¬ (st.getContract cid).timelock > now then
    .error "withdrawable: timelock time must be in the future"
  else
    let d := st.getContract cid
    .ok (st.setContract cid { d with withdrawn := true },
         ⟨d.receiver, d.amount⟩,
         MonadEvent.HTLCWithdrawn cid secret)

/-- Embeds `MonadHTLC.refund(contractId)`: modifiers `contractExists` and
`refundable` (caller is sender, not refunded, not withdrawn,
`timelock <= block.timestamp`). -/
def MonadHTLCState.refund (st : MonadHTLCState) (cid : Word)
    (caller : Address) (now : Nat) :
    Except String (MonadHTLCState × Transfer × MonadEvent) :=
  if ¬ st.contractExists cid then .error "contract does not exist"
  else if (st.getContract cid).sender ≠ caller then
    .error "refundable: not sender"
  else if (st.getContract cid).refunded then
    .error "refundable: already refunded"
  else if (st.getContract cid).withdrawn then
    .error "refundable: already withdrawn"
  else if ¬ (st.getContract cid).timelock ≤ now then
    .error "refundable: timelock not yet passed"
  else
    let d := st.getContract cid
    .ok (st.setContract cid { d with refunded := true },
         ⟨d.sender, d.amount⟩,
         MonadEvent.HTLCRefunded cid)

/-! ## MonadBridge (MonadBridge.sol, contract MonadBridge)

Incoming orders mirror Ethereum orders; `fulfillIncomingOrder` locks
target-side funds by calling into the `MonadHTLC` contract. -/

structure IncomingOrder where
  ethereumOrderHash : Word
  tokenIn : Address
  tokenOut : Address
  amountIn : Nat
  amountOut : Nat
  hashlock : Word
  timelock : Nat
  ethereumMaker : Address
  monadReceiver : Address
  fulfilled : Bool
  refunded : Bool
  createdAt : Nat
  htlcContractId : Word
  fulfiller : Address
deriving DecidableEq, Repr

def IncomingOrder.zero : IncomingOrder :=
  ⟨0, 0, 0, 0, 0, 0, 0, 0, 0, false, false, 0, 0, 0⟩

structure BridgeState where
  incomingOrders : List (Word × IncomingOrder)
  authorizedRelayers : List Address
  htlc : MonadHTLCState
deriving DecidableEq, Repr

def BridgeState.getIncoming (st : BridgeState) (ehash : Word) : IncomingOrder :=
  match st.incomingOrders.lookup ehash with
  | some o => o
  | none => IncomingOrder.zero

def BridgeState.setIncoming (st : BridgeState) (ehash : Word)
    (o : IncomingOrder) : BridgeState :=
  { st with incomingOrders :=
      (ehash, o) :: st.incomingOrders.filter (fun kv => kv.1 ≠ ehash) }

inductive BridgeEvent where
  | IncomingOrderProcessed (ethereumOrderHash monadOrderHash : Word)
      (monadReceiver tokenIn tokenOut : Address) (amountIn amountOut : Nat)
      (hashlock : Word) (timelock : Nat)
  | IncomingOrderFulfilled (ethereumOrderHash monadOrderHash : Word)
      (secret : Word) (fulfiller : Address)
deriving DecidableEq, Repr

/-- Embeds `MonadBridge.processEthereumOrder`: relayer-only mirroring of an
Ethereum order.  `monadOrderHashOf` stands for the keccak of the packed
`(ethereumOrderHash, tokenOut, amountOut, monadReceiver, timestamp)`. -/
def BridgeState.processEthereumOrder
    (monadOrderHashOf : Word → Address → Nat → Address → Nat → Word)
    (st : BridgeState) (caller : Address) (now : Nat)
    (ethereumOrderHash : Word) (tokenIn tokenOut : Address)
    (amountIn amountOut : Nat) (hashlock : Word) (timelock : Nat)
    (ethereumMaker monadReceiver : Address) :
    Except String (BridgeState × BridgeEvent) :=
  if ¬ caller ∈ st.authorizedRelayers then .error "Not authorized relayer"
  else if ethereumOrderHash = 0 then .error "Invalid Ethereum order hash"
  else if (st.getIncoming ethereumOrderHash).ethereumOrderHash ≠ 0 then
    .error "Order already processed"
  else if monadReceiver = 0 then .error "Invalid receiver address"
  else if tokenOut = 0 then .error "Invalid output token"
  else if ¬ amountOut > 0 then .error "Invalid output amount"
  else if ¬ timelock > now then .error "Invalid timelock"
  else
    let monadOrderHash := monadOrderHashOf ethereumOrderHash tokenOut amountOut monadReceiver now
    .ok (st.setIncoming ethereumOrderHash
           ⟨ethereumOrderHash, tokenIn, tokenOut, amountIn, amountOut, hashlock,
            timelock, ethereumMaker, monadReceiver, false, false, now, 0, 0⟩,
         BridgeEvent.IncomingOrderProcessed ethereumOrderHash monadOrderHash
           monadReceiver tokenIn tokenOut amountIn amountOut hashlock timelock)

/-- Embeds `MonadBridge.fulfillIncomingOrder(ethereumOrderHash, secret)`: after the
existence / not-fulfilled / not-refunded / not-expired / secret checks it
creates the target-side HTLC for the fulfiller via
`htlcContract.newContract{value: amountOut}(monadReceiver, hashlock,
timelock)` (native) or `newContractERC20(monadReceiver, hashlock, timelock,
tokenOut, amountOut)` — passing `order.timelock` through unchanged.
`self` is the bridge contract's own address (the `msg.sender` seen by the
HTLC contract). -/
def BridgeState.fulfillIncomingOrder (keccakW : Word → Word)
    (cidOf : Address → Address → Nat → Word → Nat → Nat → Word)
    (cidOf20 : Address → Address → Address → Nat → Word → Nat → Nat → Word)
    (self : Address) (st : BridgeState) (caller : Address) (now : Nat)
    (msgValue : Nat) (ethereumOrderHash : Word) (secret : Word) :
    Except String (BridgeState × BridgeEvent) :=
  let order := st.getIncoming ethereumOrderHash
  if order.ethereumOrderHash = 0 then .error "Order does not exist"
  else if order.fulfilled then .error "Order already fulfilled"
  else if order.refunded then .error "Order already refunded"
  else if ¬ now < order.timelock then .error "Order expired"
  else if keccakW secret ≠ order.hashlock then .error "Invalid secret"
  else
    let htlcRes :=
      if order.tokenOut = 0 then
        if msgValue ≠ order.amountOut then
          Except.error "Incorrect native token amount"
        else
          st.htlc.newContract cidOf self order.amountOut order.monadReceiver
            order.hashlock order.timelock now
      else
        st.htlc.newContractERC20 cidOf20 self order.monadReceiver
          order.hashlock order.timelock order.tokenOut order.amountOut now
    match htlcRes with
    | .error e => .error e
    | .ok (htlc', cid, _) =>
      .ok ({ st with htlc := htlc' }.setIncoming ethereumOrderHash
             { order with fulfilled := true, fulfiller := caller,
                          htlcContractId := cid },
           BridgeEvent.IncomingOrderFulfilled ethereumOrderHash
             ethereumOrderHash secret caller)

/-! ## FusionMonadAdapter (FusionMonadAdapter.sol)

The adapter locks source funds in an `EthereumHTLC` contract.
`EthereumHTLC.sol` itself is not among the provided sources; per §6.1 of
the specification and the header of `MonadHTLC` ("Identical functionality
to EthereumHTLC"), the Ethereum-side HTLC is modelled from the spec by the
same `MonadHTLCState` operations (`newContract` / `newContractERC20`). -/

structure CrossChainOrder where
  orderHash : Word
  tokenIn : Address
  tokenOut : Address
  amountIn : Nat
  amountOut : Nat
  hashlock : Word
  timelock : Nat
  maker : Address
  monadReceiver : Address
  chainId : Nat
  isActive : Bool
  isFulfilled : Bool
  createdAt : Nat
  htlcContractId : Word
deriving DecidableEq, Repr

def CrossChainOrder.zero : CrossChainOrder :=
  ⟨0, 0, 0, 0, 0, 0, 0, 0, 0, 0, false, false, 0, 0⟩

structure AdapterState where
  orders : List (Word × CrossChainOrder)
  supportedChains : List Nat
  minTimelock : Nat
  maxTimelock : Nat
  defaultTimelock : Nat
  htlc : MonadHTLCState
deriving DecidableEq, Repr

/-- Constructor state: chains 1 and 11155111 supported; `defaultTimelock =
24 hours`, `minTimelock = 1 hours`, `maxTimelock = 7 days` (in seconds). -/
def AdapterState.init : AdapterState :=
  ⟨[], [1, 11155111], 3600, 604800, 86400, ⟨[]⟩⟩

def AdapterState.getOrder (st : AdapterState) (oh : Word) : CrossChainOrder :=
  match st.orders.lookup oh with
  | some o => o
  | none => CrossChainOrder.zero

def AdapterState.setOrder (st : AdapterState) (oh : Word)
    (o : CrossChainOrder) : AdapterState :=
  { st with orders := (oh, o) :: st.orders.filter (fun kv => kv.1 ≠ oh) }

inductive AdapterEvent where
  | CrossChainOrderCreated (orderHash : Word) (maker tokenIn tokenOut : Address)
      (amountIn amountOut : Nat) (hashlock : Word) (timelock : Nat)
      (targetChainId : Nat) (monadReceiver : Address)
  | SecretGenerated (orderHash : Word) (secret : Word)
deriving DecidableEq, Repr

/-- Embeds `FusionMonadAdapter.createCrossChainOrder`: validates the inputs,
derives `secret = keccak256(packed(msg.sender, timestamp, difficulty,
amountIn, amountOut))` (the parameter `genSecret`) and `hashlock =
keccak256(packed(secret))`, computes the order hash (parameter
`orderHashOf`), locks the source funds in the HTLC and stores the order
with `timelock := block.timestamp + duration`.  It ends by emitting
`CrossChainOrderCreated` and then — via `_storeSecretForRelayer` —
`SecretGenerated(orderHash, secret)`. -/
def AdapterState.createCrossChainOrder
    (keccakW : Word → Word)
    (genSecret : Address → Nat → Nat → Nat → Nat → Word)
    (orderHashOf : Address → Address → Address → Nat → Nat → Word → Nat → Nat → Address → Word)
    (cidOf : Address → Address → Nat → Word → Nat → Nat → Word)
    (cidOf20 : Address → Address → Address → Nat → Word → Nat → Nat → Word)
    (self : Address) (st : AdapterState) (caller : Address)
    (now difficulty msgValue : Nat) (tokenIn tokenOut : Address)
    (amountIn amountOut : Nat) (monadReceiver : Address)
    (targetChainId customTimelock : Nat) :
    Except String (AdapterState × Word × List AdapterEvent) :=
  if ¬ targetChainId ∈ st.supportedChains then .error "Unsupported target chain"
  else if ¬ (amountIn > 0 ∧ amountOut > 0) then .error "Invalid amounts"
  else if monadReceiver = 0 then .error "Invalid receiver address"
  else if tokenIn = 0 then .error "Invalid input token"
  else if tokenOut = 0 then .error "Invalid output token"
  else
    let timelock := if customTimelock = 0 then st.defaultTimelock else customTimelock
    if ¬ (timelock ≥ st.minTimelock ∧ timelock ≤ st.maxTimelock) then
      .error "Invalid timelock"
    else
      let secret := genSecret caller now difficulty amountIn amountOut
      let hashlock := keccakW secret
      let orderHash := orderHashOf caller tokenIn tokenOut amountIn amountOut
        hashlock (now + timelock) targetChainId monadReceiver
      if (st.getOrder orderHash).maker ≠ 0 then .error "Order already exists"
      else
        let htlcRes :=
          if tokenIn = 0 then
            if msgValue ≠ amountIn then Except.error "Incorrect ETH amount"
            else st.htlc.newContract cidOf self amountIn self hashlock
              (now + timelock) now
          else
            st.htlc.newContractERC20 cidOf20 self self hashlock
              (now + timelock) tokenIn amountIn now
        match htlcRes with
        | .error e => .error e
        | .ok (htlc', cid, _) =>
          .ok (({ st with htlc := htlc' }).setOrder orderHash
                 ⟨orderHash, tokenIn, tokenOut, amountIn, amountOut, hashlock,
                  now + timelock, caller, monadReceiver, targetChainId,
                  true, false, now, cid⟩,
               orderHash,
               [AdapterEvent.CrossChainOrderCreated orderHash caller tokenIn
                  tokenOut amountIn amountOut hashlock (now + timelock)
                  targetChainId monadReceiver,
                AdapterEvent.SecretGenerated orderHash secret])

/-! ## ResolverService (backend/resolver/index.ts)

Order table (`pendingOrders : Map<string, PendingOrder>`) and the demo
secret store (`secretStore : Map<string, string>`).  Times carried in
milliseconds where the TypeScript uses `Date.now()`; order timelocks are in
seconds as on chain. -/

inductive Chain where
  | ethereum
  | monad
deriving DecidableEq, Repr

inductive OrderStatus where
  | pending
  | resolved
  | refunded
deriving DecidableEq, Repr

structure RPendingOrder where
  orderHash : Word
  sourceChain : Chain
  targetChain : Chain
  tokenIn : Word
  tokenOut : Word
  amountIn : Nat
  amountOut : Nat
  hashlock : Word
  timelock : Nat
  maker : Address
  receiver : Address
  status : OrderStatus
  createdAt : Nat
  resolvedAt : Option Nat
  refundedAt : Option Nat
  secret : Option String
deriving DecidableEq, Repr

/-- Embeds `ORDER_TIMEOUT_BUFFER = 60 * 60` seconds. -/
def ORDER_TIMEOUT_BUFFER : Nat := 60 * 60

/-- Embeds `MAX_PENDING_ORDERS = 1000`. -/
def MAX_PENDING_ORDERS : Nat := 1000

structure ResolverState where
  pendingOrders : List (Word × RPendingOrder)
  secretStore : List (Word × String)
deriving DecidableEq, Repr

/-- Embeds `Map.set`: update in place when the key is present, append otherwise. -/
def mapSet {α : Type} (m : List (Word × α)) (k : Word) (v : α) :
    List (Word × α) :=
  if (m.lookup k).isSome then
    m.map (fun kv => if kv.1 = k then (k, v) else kv)
  else m ++ [(k, v)]

/-- Embeds `cleanupOldOrders`: delete entries whose status is not `pending` and
whose `createdAt` lies before `now - 24h` (milliseconds; the TypeScript
cutoff may be negative, hence the `Int` comparison). -/
def cleanupOldOrders (now : Nat) (m : List (Word × RPendingOrder)) :
    List (Word × RPendingOrder) :=
  m.filter (fun kv =>
    ¬ (kv.2.status ≠ OrderStatus.pending ∧
       (kv.2.createdAt : Int) < (now : Int) - 24 * 60 * 60 * 1000))

/-- Embeds `addPendingOrder`: when the table has reached `MAX_PENDING_ORDERS` run
the cleanup, then insert unconditionally. -/
def addPendingOrder (now : Nat) (m : List (Word × RPendingOrder))
    (o : RPendingOrder) : List (Word × RPendingOrder) :=
  let m' := if m.length ≥ MAX_PENDING_ORDERS then cleanupOldOrders now m else m
  mapSet m' o.orderHash o

/-- A refund transaction handed to `fusionAdapter.refund`. -/
structure RefundSubmission where
  orderHash : Word
deriving DecidableEq, Repr

/-- The per-order filter of `handleTimeoutRefunds`: status is `pending` and
`currentTime > timelock*1000 - ORDER_TIMEOUT_BUFFER*1000` (milliseconds,
signed as in JavaScript). -/
def timeoutExpired (nowMs : Nat) (o : RPendingOrder) : Bool :=
  o.status = OrderStatus.pending ∧
  (nowMs : Int) > (o.timelock : Int) * 1000 - (ORDER_TIMEOUT_BUFFER : Int) * 1000

/-- Embeds `processRefund`: for an ethereum-source order submit
`fusionAdapter.refund(orderHash)` (`submitOk` tells whether that await
succeeds — on failure the catch leaves the order unchanged); for a
monad-source order nothing is submitted.  After the submission point the
order is marked `refunded` with `refundedAt := Date.now()`. -/
def processRefund (submitOk : Word → Bool) (nowMs : Nat) (o : RPendingOrder) :
    RPendingOrder × List RefundSubmission :=
  if o.sourceChain = Chain.ethereum then
    if submitOk o.orderHash then
      ({ o with status := OrderStatus.refunded, refundedAt := some nowMs },
       [⟨o.orderHash⟩])
    else (o, [⟨o.orderHash⟩])
  else
    ({ o with status := OrderStatus.refunded, refundedAt := some nowMs }, [])

/-- One order's trip through `handleTimeoutRefunds`: orders passing the
`timeoutExpired` filter go through `processRefund`, the rest are left
untouched. -/
def sweepOrder (submitOk : Word → Bool) (nowMs : Nat) (o : RPendingOrder) :
    RPendingOrder × List RefundSubmission :=
  if timeoutExpired nowMs o then processRefund submitOk nowMs o else (o, [])

/-- Embeds `handleTimeoutRefunds` over the whole table. -/
def handleTimeoutRefunds (submitOk : Word → Bool) (nowMs : Nat)
    (orders : List RPendingOrder) : List RPendingOrder × List RefundSubmission :=
  match orders with
  | [] => ([], [])
  | o :: rest =>
    let (o', subs) := sweepOrder submitOk nowMs o
    let (rest', subsRest) := handleTimeoutRefunds submitOk nowMs rest
    (o' :: rest', subs ++ subsRest)

/-! Event handling (`processEvents` / `handleHTLCWithdrawn` /
`propagateSecret`). -/

inductive HTLCEventType where
  | created
  | withdrawn
  | refunded
deriving DecidableEq, Repr

structure HTLCEventR where
  type : HTLCEventType
  contractId : Word
  chain : Chain
  blockNumber : Nat
  transactionHash : Word
  logIndex : Nat
  secret : Option Word
deriving DecidableEq, Repr

/-- A `withdraw(contractId, secret)` transaction submitted on a chain. -/
structure WithdrawCall where
  chain : Chain
  contractId : Word
  secret : Word
deriving DecidableEq, Repr

def otherChain : Chain → Chain
  | Chain.ethereum => Chain.monad
  | Chain.monad => Chain.ethereum

/-- One event through `processEvents`: `created` and `refunded` events only
log; a `withdrawn` event carrying a secret goes through `propagateSecret`,
which submits `withdraw(contractId, secret)` on the opposite chain.  No
handler touches `pendingOrders` or `secretStore`, and no de-duplication
set is consulted. -/
def processEvent (st : ResolverState) (e : HTLCEventR) :
    ResolverState × List WithdrawCall :=
  match e.type with
  | HTLCEventType.created => (st, [])
  | HTLCEventType.refunded => (st, [])
  | HTLCEventType.withdrawn =>
    match e.secret with
    | some s => (st, [⟨otherChain e.chain, e.contractId, s⟩])
    | none => (st, [])

/-- Embeds `processEvents` over a batch, collecting the submitted transactions. -/
def processEvents (st : ResolverState) (evs : List HTLCEventR) :
    ResolverState × List WithdrawCall :=
  match evs with
  | [] => (st, [])
  | e :: rest =>
    let (st', calls) := processEvent st e
    let (st'', callsRest) := processEvents st' rest
    (st'', calls ++ callsRest)

/-- Embeds `resolveAtomicSwap(orderHash, secret)`.  The error payload carries the
resolver state at the throw point (the TypeScript rethrows, retaining all
mutations performed so far).  `keccakUtf8` is
`ethers.keccak256(ethers.toUtf8Bytes(secret))`; `execOk` is whether
`executeAtomicSwapBothChains` (two external contract calls) succeeds. -/
def resolveAtomicSwap (keccakUtf8 : String → Word) (execOk : Bool)
    (nowMs : Nat) (st : ResolverState) (orderHash : Word) (secret : String) :
    Except (String × ResolverState) ResolverState :=
  match st.pendingOrders.lookup orderHash with
  | none => .error ("No pending order found", st)
  | some o =>
    if keccakUtf8 secret ≠ o.hashlock then .error ("Invalid secret provided", st)
    else
      let st1 := { st with secretStore := mapSet st.secretStore orderHash secret }
      if ¬ execOk then .error ("atomic swap execution failed", st1)
      else
        let o' := { o with status := OrderStatus.resolved, secret := some secret,
                           resolvedAt := some nowMs }
        .ok { st1 with pendingOrders := mapSet st1.pendingOrders orderHash o' }

/-! ## EventMonitor (backend/monitoring/index.ts)

Per-chain cursor (`lastProcessedBlock`).  The `processFusionAdapterEvents`
and `processEthereumHTLCEvents` helpers wrap all fetching and handling in
their own try/catch, so a failure there is logged and swallowed; the
caller `monitorEthereumEvents` then assigns `lastProcessedBlock.ethereum =
toBlock` unconditionally.  Only a failure before the range is computed
(`getBlockNumber`, modelled by `currentBlock = none`) reaches the outer
catch and leaves the cursor unchanged. -/

def BLOCK_CONFIRMATIONS : Nat := 3

def MAX_BLOCKS_PER_QUERY : Nat := 100

structure MonitorState where
  lastEthereum : Nat
  lastMonad : Nat
deriving DecidableEq, Repr

/-- A fetcher for one contract's logs over an inclusive block range; the
error case is a failed or undecodable `queryFilter` response. -/
abbrev LogFetch := Nat → Nat → Except String (List Word)

/-- Embeds `processFusionAdapterEvents` / `processEthereumHTLCEvents` pattern: the
whole body sits in a try/catch that logs and returns, so the caller never
sees an error; a failed fetch yields no processed events. -/
def processChainEvents (fetch : LogFetch) (fromBlock toBlock : Nat) : List Word :=
  match fetch fromBlock toBlock with
  | .ok evs => evs
  | .error _ => []

/-- Embeds `monitorEthereumEvents`: compute `safeBlock = current - 3`; return
early when `safeBlock ≤ cursor`; otherwise process
`[cursor+1, min(safeBlock, cursor+100)]` through the two swallowing
helpers and set the cursor to `toBlock`. -/
def monitorEthereumEvents (isRunning : Bool) (fetchAdapter fetchHTLC : LogFetch)
    (currentBlock : Option Nat) (st : MonitorState) : MonitorState :=
  if ¬ isRunning then st
  else
    match currentBlock with
    | none => st
    | some current =>
      let safeBlock := current - BLOCK_CONFIRMATIONS
      if safeBlock ≤ st.lastEthereum then st
      else
        let fromBlock := st.lastEthereum + 1
        let toBlock := min safeBlock (fromBlock + MAX_BLOCKS_PER_QUERY - 1)
        let _ := processChainEvents fetchAdapter fromBlock toBlock
        let _ := processChainEvents fetchHTLC fromBlock toBlock
        { st with lastEthereum := toBlock }

/-! ## Shared helper lemmas -/

theorem getContract_set_self (st : MonadHTLCState) (cid : Word) (d : HTLCData) :
    (st.setContract cid d).getContract cid = d := by
  simp [MonadHTLCState.setContract, MonadHTLCState.getContract, List.lookup]

theorem getIncoming_set_self (st : BridgeState) (ehash : Word)
    (o : IncomingOrder) : (st.setIncoming ehash o).getIncoming ehash = o := by
  simp [BridgeState.setIncoming, BridgeState.getIncoming, List.lookup]

theorem getOrder_set_self (st : AdapterState) (oh : Word)
    (o : CrossChainOrder) : (st.setOrder oh o).getOrder oh = o := by
  simp [AdapterState.setOrder, AdapterState.getOrder, List.lookup]

/-- Shape of a successful `newContract`: the result state stores the fresh
contract data under the returned id. -/
theorem newContract_ok_shape
    (cidOf : Address → Address → Nat → Word → Nat → Nat → Word)
    (st : MonadHTLCState) (caller : Address) (msgValue : Nat)
    (receiver : Address) (hashlock : Word) (timelock now : Nat)
    (htlc' : MonadHTLCState) (cid : Word) (ev : MonadEvent)
    (h : st.newContract cidOf caller msgValue receiver hashlock timelock now = .ok (htlc', cid, ev)) :
    htlc' = st.setContract cid
      ⟨caller, receiver, 0, msgValue, hashlock, timelock, false, false, now⟩ := by
  unfold MonadHTLCState.newContract at h
  split_ifs at h with h1 h2
  dsimp only at h
  split_ifs at h with h3
  injection h with h
  cases h
  rfl

/-- Shape of a successful `newContractERC20`. -/
theorem newContractERC20_ok_shape
    (cidOf20 : Address → Address → Address → Nat → Word → Nat → Nat → Word)
    (st : MonadHTLCState) (caller receiver : Address) (hashlock : Word)
    (timelock : Nat) (token : Address) (amount now : Nat)
    (htlc' : MonadHTLCState) (cid : Word) (ev : MonadEvent)
    (h : st.newContractERC20 cidOf20 caller receiver hashlock timelock token amount now = .ok (htlc', cid, ev)) :
    htlc' = st.setContract cid
      ⟨caller, receiver, token, amount, hashlock, timelock, false, false, now⟩ := by
  unfold MonadHTLCState.newContractERC20 at h
  split_ifs at h with h1 h2 h3
  dsimp only at h
  split_ifs at h with h4
  injection h with h
  cases h
  rfl

/-! ## Claim C1 — conditions under which an HTLC claim succeeds -/

/-- Concrete Ethereum HTLC used to refute C1: locked, receiver 2,
timelock 100, 5 wei escrowed, hashlock `sha 7 = 8` for `sha = (· + 1)`. -/
def ethCtr : EthHTLC := ⟨1, 2, 8, 100, 0, 5, HState.Locked⟩

/-- C1 counterexample: on the Ethereum HTLC (`HTLC.sol`), `claim` succeeds
for a caller (address 1) who is not the designated receiver (address 2) at
a time (100) that is not strictly before the timelock (100) — the claim's
"caller is receiver" and "now < timelock" conditions are not enforced
there. -/
theorem ethClaim_succeeds_for_non_receiver_after_timelock :
    (EthHTLC.claim (fun w => w + 1) ethCtr 1 100 7).isOk = true ∧
    (1 : Address) ≠ ethCtr.receiver ∧ ¬ (100 : Nat) < ethCtr.timelock := by
  decide

/-- C1 (amended): on the Ethereum HTLC, `claim(secret)` succeeds iff the
contract is `Locked` and `sha256(secret)` equals the hashlock — the caller
and the current time are not checked — and on success it transfers the
locked amount to the stored receiver and emits `Claimed(receiver, secret)`.
On the Monad HTLC, `withdraw(contractId, secret)` succeeds iff the contract
exists, `keccak256(secret)` equals the hashlock, the caller is the
receiver, it is not yet withdrawn, and the current time is strictly before
the timelock (the `refunded` flag is not itself consulted); on success it
transfers the amount to the receiver and emits
`HTLCWithdrawn(contractId, secret)`. -/
theorem htlc_claim_success_characterisation :
    (∀ (sha : Word → Word) (h : EthHTLC) (caller : Address) (now : Nat) (s : Word),
      ((EthHTLC.claim sha h caller now s).isOk ↔
        (h.state = HState.Locked ∧ sha s = h.hashlock)) ∧
      (∀ r, EthHTLC.claim sha h caller now s = .ok r →
        r.2.1 = ⟨h.receiver, h.lockedAmount⟩ ∧
        r.2.2 = EthEvent.Claimed h.receiver s)) ∧
    (∀ (kec : Word → Word) (st : MonadHTLCState) (cid s : Word)
       (caller : Address) (now : Nat),
      ((st.withdraw kec cid s caller now).isOk ↔
        (st.contractExists cid = true ∧
         (st.getContract cid).hashlock = kec s ∧
         (st.getContract cid).receiver = caller ∧
         (st.getContract cid).withdrawn = false ∧
         now < (st.getContract cid).timelock)) ∧
      (∀ r, st.withdraw kec cid s caller now = .ok r →
        r.2.1 = ⟨(st.getContract cid).receiver, (st.getContract cid).amount⟩ ∧
        r.2.2 = MonadEvent.HTLCWithdrawn cid s)) := by
  constructor
  · intro sha h caller now s
    unfold EthHTLC.claim
    constructor
    · split_ifs with h1 h2 <;> simp_all [Except.isOk, Except.toBool]
    · intro r hr
      split_ifs at hr with h1 h2 <;> simp_all
      subst hr
      simp
  · intro kec st cid s caller now
    unfold MonadHTLCState.withdraw
    constructor
    · split_ifs with h1 h2 h3 h4 h5 <;> simp_all [Except.isOk, Except.toBool]
    · intro r hr
      split_ifs at hr with h1 h2 h3 h4 h5 <;> simp_all
      subst hr
      simp

/-- Witness for the amended C1 at a concrete input: the Monad-side
withdraw on a concrete contract satisfying all five conditions succeeds. -/
theorem htlc_claim_success_characterisation_witness :
    ((MonadHTLCState.mk [(5, ⟨1, 2, 0, 9, 8, 100, false, false, 0⟩)]).withdraw
      (fun w => w + 1) 5 7 2 50).isOk = true :=
  (htlc_claim_success_characterisation.2 (fun w => w + 1)
    ⟨[(5, ⟨1, 2, 0, 9, 8, 100, false, false, 0⟩)]⟩ 5 7 2 50).1.mpr (by decide)

/-! ## Claim C2 — timelock skew between the two legs of an order -/

/-- Initial bridge state used in concrete runs: no orders, relayer 9
authorized, empty HTLC store. -/
def bridge0 : BridgeState := ⟨[], [9], ⟨[]⟩⟩

/-- A concrete mirror-and-fulfill run: relayer 9 mirrors Ethereum order 1
(`hashlock 42 = keccak 41`, timelock 1000) at time 100, then fulfiller 6
fulfils it at time 200. -/
def c2run : Except String (BridgeState × BridgeEvent) :=
  (bridge0.processEthereumOrder (fun _ _ _ _ _ => 77) 9 100 1 5 7 10 9 42 1000 3 4).bind
    (fun p => p.1.fulfillIncomingOrder (fun w => w + 1) (fun _ _ _ _ _ _ => 50)
      (fun _ _ _ _ _ _ _ => 55) 8 6 200 0 1 41)

/-- C2 counterexample: in the concrete run `c2run` the fulfiller's
target-side HTLC is created with timelock 1000, equal to — not strictly
smaller than — the source-side timelock 1000; no safety gap Δ is applied. -/
theorem target_timelock_not_below_source :
    (c2run.toOption.map (fun p =>
       ((p.1.htlc.getContract (p.1.getIncoming 1).htlcContractId).timelock,
        (p.1.getIncoming 1).timelock)) = some (1000, 1000)) ∧
    ¬ (1000 : Nat) < 1000 := by
  decide

/-- C2 (amended): the timelock is passed through unchanged on both hops —
`processEthereumOrder` stores the Ethereum order's timelock verbatim, and
`fulfillIncomingOrder` creates the target-side HTLC with exactly
`order.timelock`, so `timelock(target) = timelock(source)` and no safety
gap Δ > 0 is enforced. -/
theorem bridge_timelock_passthrough :
    (∀ (mOH : Word → Address → Nat → Address → Nat → Word) (st : BridgeState)
       (caller : Address) (now : Nat) (ehash : Word) (tokenIn tokenOut : Address)
       (amountIn amountOut : Nat) (hashlock : Word) (timelock : Nat)
       (maker receiver : Address) (out : BridgeState × BridgeEvent),
      st.processEthereumOrder mOH caller now ehash tokenIn tokenOut amountIn
        amountOut hashlock timelock maker receiver = .ok out →
      (out.1.getIncoming ehash).timelock = timelock) ∧
    (∀ (kec : Word → Word)
       (cidOf : Address → Address → Nat → Word → Nat → Nat → Word)
       (cidOf20 : Address → Address → Address → Nat → Word → Nat → Nat → Word)
       (self : Address) (st : BridgeState) (caller : Address)
       (now msgValue : Nat) (ehash secret : Word) (out : BridgeState × BridgeEvent),
      st.fulfillIncomingOrder kec cidOf cidOf20 self caller now msgValue ehash
        secret = .ok out →
      (out.1.getIncoming ehash).timelock = (st.getIncoming ehash).timelock ∧
      (out.1.htlc.getContract (out.1.getIncoming ehash).htlcContractId).timelock
        = (st.getIncoming ehash).timelock) := by
  constructor
  · intro mOH st caller now ehash tokenIn tokenOut amountIn amountOut hashlock
      timelock maker receiver out h
    unfold BridgeState.processEthereumOrder at h
    split_ifs at h with h1 h2 h3 h4 h5 h6 h7
    dsimp only at h
    injection h with h
    subst h
    rw [getIncoming_set_self]
  · intro kec cidOf cidOf20 self st caller now msgValue ehash secret out h
    unfold BridgeState.fulfillIncomingOrder at h
    dsimp only at h
    split_ifs at h with h1 h2 h3 h4 h5 h6 h7 <;>
      try exact Except.noConfusion h
    all_goals split at h
    all_goals try exact Except.noConfusion h
    all_goals (
      rename_i htlc' cid ev heq
      injection h with h
      subst h
      refine ⟨by rw [getIncoming_set_self], ?_⟩
      rw [getIncoming_set_self]
      show ((BridgeState.htlc _).getContract cid).timelock = _
      simp only [BridgeState.setIncoming]
      first
      | rw [newContract_ok_shape _ _ _ _ _ _ _ _ _ _ _ heq, getContract_set_self]
      | rw [newContractERC20_ok_shape _ _ _ _ _ _ _ _ _ _ _ _ heq,
            getContract_set_self])

/-- Witness for C2's pass-through at the concrete mirror step of `c2run`:
the stored incoming order carries the Ethereum timelock 1000. -/
theorem bridge_timelock_passthrough_witness :
    ((bridge0.processEthereumOrder (fun _ _ _ _ _ => 77) 9 100 1 5 7 10 9 42 1000 3 4).toOption.map
      (fun p => (p.1.getIncoming 1).timelock)) = some 1000 := by
  have hIsOk : (bridge0.processEthereumOrder (fun _ _ _ _ _ => 77)
      9 100 1 5 7 10 9 42 1000 3 4).isOk = true := by decide
  cases hE : bridge0.processEthereumOrder (fun _ _ _ _ _ => 77) 9 100 1 5 7 10 9 42 1000 3 4 with
  | error e =>
    rw [hE] at hIsOk
    exact absurd hIsOk (by simp [Except.isOk, Except.toBool])
  | ok p =>
    obtain ⟨a, b⟩ := p
    have h := bridge_timelock_passthrough.1 (fun _ _ _ _ _ => 77) bridge0
      9 100 1 5 7 10 9 42 1000 3 4 ⟨a, b⟩ hE
    simp only [hE, Except.toOption, Option.map_some]
    exact congrArg some h

/-! ## Claims C3, C7, C8 — order creation on the adapter -/

/-- Shape of a successful `createCrossChainOrder` run: stored hashlock and
timelock, the in-range duration guard, and the exact emitted event list. -/
theorem createOrder_ok_shape
    (kec : Word → Word) (gen : Address → Nat → Nat → Nat → Nat → Word)
    (ohOf : Address → Address → Address → Nat → Nat → Word → Nat → Nat → Address → Word)
    (cidOf : Address → Address → Nat → Word → Nat → Nat → Word)
    (cidOf20 : Address → Address → Address → Nat → Word → Nat → Nat → Word)
    (self : Address) (st : AdapterState) (caller : Address)
    (now difficulty msgValue : Nat) (tokenIn tokenOut : Address)
    (amountIn amountOut : Nat) (receiver : Address) (chain custom : Nat)
    (a : AdapterState) (oh : Word) (evs : List AdapterEvent)
    (h : st.createCrossChainOrder kec gen ohOf cidOf cidOf20 self caller now
      difficulty msgValue tokenIn tokenOut amountIn amountOut receiver chain
      custom = .ok (a, oh, evs)) :
    (a.getOrder oh).hashlock = kec (gen caller now difficulty amountIn amountOut) ∧
    (a.getOrder oh).timelock =
      now + (if custom = 0 then st.defaultTimelock else custom) ∧
    (st.minTimelock ≤ (if custom = 0 then st.defaultTimelock else custom) ∧
      (if custom = 0 then st.defaultTimelock else custom) ≤ st.maxTimelock) ∧
    evs = [AdapterEvent.CrossChainOrderCreated oh caller tokenIn tokenOut
             amountIn amountOut (kec (gen caller now difficulty amountIn amountOut))
             (now + (if custom = 0 then st.defaultTimelock else custom)) chain receiver,
           AdapterEvent.SecretGenerated oh (gen caller now difficulty amountIn amountOut)] := by
  unfold AdapterState.createCrossChainOrder at h
  dsimp only at h
  split_ifs at h with h1 h2 h3 h4 h5 h6 h7 h8 h9 <;>
    try exact Except.noConfusion h
  all_goals split at h
  all_goals try exact Except.noConfusion h
  all_goals (
    rename_i htlc' cid ev heq
    injection h with h
    injection h with hA h
    injection h with hOh hEvs
    subst hA; subst hOh; subst hEvs
    refine ⟨?_, ?_, ?_, ?_⟩ <;>
      simp_all [getOrder_set_self])

/-- Concrete successful order creation at `AdapterState.init`, caller 3,
time 100, ERC20 input token 6, default timelock; keccak modelled by
`(· + 1)`, so the generated secret 41 has hashlock 42. -/
def adapterRun : Except String (AdapterState × Word × List AdapterEvent) :=
  AdapterState.init.createCrossChainOrder (fun w => w + 1) (fun _ _ _ _ _ => 41)
    (fun _ _ _ _ _ _ _ _ _ => 70) (fun _ _ _ _ _ _ => 50) (fun _ _ _ _ _ _ _ => 55)
    8 3 100 5 0 6 7 10 9 4 1 0

/-- C3: order creation itself emits the plaintext preimage.  In the
concrete run `adapterRun` the event list emitted during
`createCrossChainOrder` ends with `SecretGenerated(70, 41)` where
`keccak(41) = 42` is exactly the stored order's hashlock — the secret is
observable from the creation event, before any HTLC claim. -/
theorem creation_event_reveals_secret :
    adapterRun.toOption.map (fun p => p.2.2) =
      some [AdapterEvent.CrossChainOrderCreated 70 3 6 7 10 9 42 86500 1 4,
            AdapterEvent.SecretGenerated 70 41] ∧
    adapterRun.toOption.map (fun p => (p.1.getOrder 70).hashlock) = some 42 ∧
    (41 : Word) + 1 = 42 := by
  decide

/-- C7: `createCrossChainOrder` unconditionally rejects the native-asset
sentinel: with `tokenIn = address(0)` the call reverts (the
`require(tokenIn != address(0))` guard precedes the dead native-ETH
branch), for every state and every choice of the other arguments. -/
theorem createOrder_rejects_native_tokenIn
    (kec : Word → Word) (gen : Address → Nat → Nat → Nat → Nat → Word)
    (ohOf : Address → Address → Address → Nat → Nat → Word → Nat → Nat → Address → Word)
    (cidOf : Address → Address → Nat → Word → Nat → Nat → Word)
    (cidOf20 : Address → Address → Address → Nat → Word → Nat → Nat → Word)
    (self : Address) (st : AdapterState) (caller : Address)
    (now difficulty msgValue : Nat) (tokenOut : Address)
    (amountIn amountOut : Nat) (receiver : Address) (chain custom : Nat) :
    (st.createCrossChainOrder kec gen ohOf cidOf cidOf20 self caller now
      difficulty msgValue 0 tokenOut amountIn amountOut receiver chain
      custom).isOk = false := by
  unfold AdapterState.createCrossChainOrder
  split_ifs <;> simp_all [Except.isOk, Except.toBool]

/-- C8: with the constructor configuration (min 1 h, max 7 d, default
24 h), the effective duration `d` (`customTimelock` when nonzero, else the
default) is enforced at creation: out-of-range `d` makes the call revert,
and a successful call both has `d` within bounds and stores
`timelock = block.timestamp + d`. -/
theorem createOrder_timelock_enforcement
    (kec : Word → Word) (gen : Address → Nat → Nat → Nat → Nat → Word)
    (ohOf : Address → Address → Address → Nat → Nat → Word → Nat → Nat → Address → Word)
    (cidOf : Address → Address → Nat → Word → Nat → Nat → Word)
    (cidOf20 : Address → Address → Address → Nat → Word → Nat → Nat → Word)
    (self : Address) (st : AdapterState) (caller : Address)
    (now difficulty msgValue : Nat) (tokenIn tokenOut : Address)
    (amountIn amountOut : Nat) (receiver : Address) (chain custom : Nat)
    (hmin : st.minTimelock = 3600) (hmax : st.maxTimelock = 604800)
    (hdef : st.defaultTimelock = 86400) :
    (((if custom = 0 then 86400 else custom) < 3600 ∨
       604800 < (if custom = 0 then 86400 else custom)) →
      (st.createCrossChainOrder kec gen ohOf cidOf cidOf20 self caller now
        difficulty msgValue tokenIn tokenOut amountIn amountOut receiver chain
        custom).isOk = false) ∧
    (∀ out, st.createCrossChainOrder kec gen ohOf cidOf cidOf20 self caller now
        difficulty msgValue tokenIn tokenOut amountIn amountOut receiver chain
        custom = .ok out →
      3600 ≤ (if custom = 0 then 86400 else custom) ∧
      (if custom = 0 then 86400 else custom) ≤ 604800 ∧
      (out.1.getOrder out.2.1).timelock =
        now + (if custom = 0 then 86400 else custom)) := by
  constructor
  · intro hout
    cases hres : st.createCrossChainOrder kec gen ohOf cidOf cidOf20 self caller
        now difficulty msgValue tokenIn tokenOut amountIn amountOut receiver
        chain custom with
    | error e => simp [hres, Except.isOk, Except.toBool]
    | ok out =>
      obtain ⟨a, oh, evs⟩ := out
      have hs := createOrder_ok_shape kec gen ohOf cidOf cidOf20 self st caller
        now difficulty msgValue tokenIn tokenOut amountIn amountOut receiver
        chain custom a oh evs hres
      rw [hmin, hmax, hdef] at hs
      exact absurd hs.2.2.1 (by by_cases hc : custom = 0 <;>
        simp [hc] at hout ⊢ <;> omega)
  · intro out hres
    obtain ⟨a, oh, evs⟩ := out
    have hs := createOrder_ok_shape kec gen ohOf cidOf cidOf20 self st caller
      now difficulty msgValue tokenIn tokenOut amountIn amountOut receiver
      chain custom a oh evs hres
    rw [hmin, hmax, hdef] at hs
    exact ⟨hs.2.2.1.1, hs.2.2.1.2, hs.2.1⟩

/-- Witness for C8 at a concrete input: `AdapterState.init` satisfies the
configuration hypotheses, and a creation with `customTimelock = 7200`
stores `timelock = 100 + 7200`. -/
theorem createOrder_timelock_enforcement_witness :
    ((AdapterState.init.createCrossChainOrder (fun w => w + 1)
        (fun _ _ _ _ _ => 41) (fun _ _ _ _ _ _ _ _ _ => 70)
        (fun _ _ _ _ _ _ => 50) (fun _ _ _ _ _ _ _ => 55)
        8 3 100 5 0 6 7 10 9 4 1 7200).toOption.map
      (fun p => (p.1.getOrder p.2.1).timelock)) = some 7300 := by
  have hIsOk : (AdapterState.init.createCrossChainOrder (fun w => w + 1)
      (fun _ _ _ _ _ => 41) (fun _ _ _ _ _ _ _ _ _ => 70)
      (fun _ _ _ _ _ _ => 50) (fun _ _ _ _ _ _ _ => 55)
      8 3 100 5 0 6 7 10 9 4 1 7200).isOk = true := by decide
  cases hE : AdapterState.init.createCrossChainOrder (fun w => w + 1)
      (fun _ _ _ _ _ => 41) (fun _ _ _ _ _ _ _ _ _ => 70)
      (fun _ _ _ _ _ _ => 50) (fun _ _ _ _ _ _ _ => 55)
      8 3 100 5 0 6 7 10 9 4 1 7200 with
  | error e =>
    rw [hE] at hIsOk
    exact absurd hIsOk (by simp [Except.isOk, Except.toBool])
  | ok p =>
    have h := (createOrder_timelock_enforcement (fun w => w + 1)
      (fun _ _ _ _ _ => 41) (fun _ _ _ _ _ _ _ _ _ => 70)
      (fun _ _ _ _ _ _ => 50) (fun _ _ _ _ _ _ _ => 55)
      8 AdapterState.init 3 100 5 0 6 7 10 9 4 1 7200
      rfl rfl rfl).2 p hE
    simp only [hE, Except.toOption, Option.map_some]
    exact congrArg some (by simpa using h.2.2)

/-! ## Helper lemmas for the association-list maps of the backend -/

theorem lookup_none_of_keys_ne {α : Type} (l : List (Word × α)) (k : Word)
    (h : ∀ kv ∈ l, kv.1 ≠ k) : l.lookup k = none := by
  induction l with
  | nil => rfl
  | cons hd tl ih =>
    have hhd : (k == hd.1) = false :=
      beq_eq_false_iff_ne.mpr (Ne.symm (h hd (List.mem_cons_self hd tl)))
    simp only [List.lookup, hhd]
    exact ih (fun kv hkv => h kv (List.mem_cons_of_mem hd hkv))

theorem mapSet_fresh_length {α : Type} (m : List (Word × α)) (k : Word) (v : α)
    (h : m.lookup k = none) : (mapSet m k v).length = m.length + 1 := by
  unfold mapSet
  rw [h]
  simp

theorem lookup_map_update {α : Type} (m : List (Word × α)) (k : Word) (v : α) :
    (m.map (fun kv => if kv.1 = k then (k, v) else kv)).lookup k =
      if (m.lookup k).isSome then some v else none := by
  induction m with
  | nil => simp
  | cons hd tl ih =>
    obtain ⟨a, b⟩ := hd
    by_cases hk : a = k
    · subst hk
      simp [List.lookup_cons]
    · have hb : (k == a) = false := beq_false_of_ne (Ne.symm hk)
      simp only [List.map, if_neg hk]
      rw [List.lookup_cons, hb, show List.lookup k ((a, b) :: tl) =
        List.lookup k tl from by rw [List.lookup_cons, hb]]
      exact ih

theorem lookup_mapSet_self {α : Type} (m : List (Word × α)) (k : Word) (v : α) :
    (mapSet m k v).lookup k = some v := by
  unfold mapSet
  by_cases hs : (m.lookup k).isSome
  · rw [if_pos hs, lookup_map_update, if_pos hs]
  · rw [if_neg hs, List.lookup_append]
    have hnone : m.lookup k = none := Option.not_isSome_iff_eq_none.mp hs
    simp [hnone, List.lookup_cons]

theorem cleanup_keeps_pending (now : Nat) (m : List (Word × RPendingOrder))
    (hall : ∀ kv ∈ m, kv.2.status = OrderStatus.pending) :
    cleanupOldOrders now m = m := by
  unfold cleanupOldOrders
  apply List.filter_eq_self.mpr
  intro kv hkv
  have := hall kv hkv
  simp [this]

/-! ## Claim C6 — the pending-order table and its capacity -/

/-- A pending (non-terminal) order keyed by `i`. -/
def basePending (i : Nat) : RPendingOrder :=
  ⟨i, Chain.ethereum, Chain.monad, 0, 0, 1, 1, 0, 7200, 0, 0,
   OrderStatus.pending, 0, none, none, none⟩

/-- A table of exactly `MAX_PENDING_ORDERS = 1000` pending orders. -/
def fullTable : List (Word × RPendingOrder) :=
  (List.range 1000).map (fun i => (i, basePending i))

/-- C6 counterexample: inserting into a table already holding 1000 pending
orders is not rejected — `cleanupOldOrders` evicts nothing (every entry is
pending) and `addPendingOrder` inserts anyway, so the table reaches 1001
entries, exceeding `MAX_PENDING_ORDERS`. -/
theorem pending_table_exceeds_cap :
    (addPendingOrder 0 fullTable (basePending 1000)).length = 1001 ∧
    MAX_PENDING_ORDERS < 1001 := by
  refine ⟨?_, by decide⟩
  have hall : ∀ kv ∈ fullTable, kv.2.status = OrderStatus.pending := by
    intro kv hkv
    obtain ⟨i, hi, rfl⟩ := List.mem_map.mp hkv
    rfl
  have hkeys : ∀ kv ∈ fullTable, kv.1 ≠ (basePending 1000).orderHash := by
    intro kv hkv
    obtain ⟨i, hi, rfl⟩ := List.mem_map.mp hkv
    have hi' : i < 1000 := List.mem_range.mp hi
    show i ≠ 1000
    exact Nat.ne_of_lt hi'
  have hlen : fullTable.length = 1000 := by simp [fullTable]
  unfold addPendingOrder
  rw [if_pos (by rw [hlen]; exact le_refl _), cleanup_keeps_pending 0 fullTable hall,
      mapSet_fresh_length _ _ _ (lookup_none_of_keys_ne _ _ hkeys), hlen]

/-- C6 (amended): `addPendingOrder` always performs the insert — the new
order is present afterwards, with no rejection path — and the cleanup run
when the table is full keeps an existing entry iff it is NOT both
non-pending (terminal) and older than the 24-hour cutoff; so only
terminal-and-stale orders are evicted, and when none exists the table
grows beyond `MAX_PENDING_ORDERS = 1000`. -/
theorem addPendingOrder_spec :
    (∀ (now : Nat) (m : List (Word × RPendingOrder)) (o : RPendingOrder),
      (addPendingOrder now m o).lookup o.orderHash = some o) ∧
    (∀ (now : Nat) (m : List (Word × RPendingOrder)) (kv : Word × RPendingOrder),
      kv ∈ m →
      (kv ∈ cleanupOldOrders now m ↔
        ¬ (kv.2.status ≠ OrderStatus.pending ∧
           (kv.2.createdAt : Int) < (now : Int) - 24 * 60 * 60 * 1000))) := by
  constructor
  · intro now m o
    unfold addPendingOrder
    exact lookup_mapSet_self _ _ _
  · intro now m kv hmem
    unfold cleanupOldOrders
    rw [List.mem_filter]
    simp [hmem]
    tauto

/-- A terminal (resolved) order created at time 0. -/
def oldResolved : RPendingOrder :=
  ⟨1, Chain.ethereum, Chain.monad, 0, 0, 1, 1, 0, 7200, 0, 0,
   OrderStatus.resolved, 0, some 0, none, none⟩

/-- Witness for C6 at a concrete input: a resolved order created at time 0
is evicted by a cleanup at time 10^9 ms. -/
theorem addPendingOrder_spec_witness :
    (1, oldResolved) ∉ cleanupOldOrders 1000000000 [(1, oldResolved)] :=
  fun hmem =>
    absurd ((addPendingOrder_spec.2 1000000000 [(1, oldResolved)]
      (1, oldResolved) (by simp)).mp hmem) (by decide)

/-! ## Claim C5 — timing of the timeout-refund sweep -/

/-- A pending Ethereum-source order with timelock 7200 s. -/
def pendingEth : RPendingOrder :=
  ⟨1, Chain.ethereum, Chain.monad, 0, 0, 1, 1, 0, 7200, 0, 0,
   OrderStatus.pending, 0, none, none, none⟩

/-- C5 counterexample: at wall time 5 400 000 ms (= 5 400 s) the sweep
already submits a refund for an order whose source timelock is 7 200 s —
the refund goes out 1 800 s *before* `now ≥ source.timelock` holds. -/
theorem refund_submitted_before_timelock :
    (handleTimeoutRefunds (fun _ => true) 5400000 [pendingEth]).2 =
      [RefundSubmission.mk 1] ∧
    5400000 < pendingEth.timelock * 1000 := by
  decide

/-- C5 (amended): the sweep submits a refund for an order iff its status
is `pending`, the wall clock is past `timelock − ORDER_TIMEOUT_BUFFER`
(one hour early, in milliseconds), and the source chain is ethereum
(monad-source orders submit nothing); the order ends up `refunded` iff it
already was, or it passed that same early filter and either its source is
monad (no transaction at all) or the ethereum refund submission
succeeded. -/
theorem sweep_refund_characterisation (submitOk : Word → Bool) (nowMs : Nat)
    (o : RPendingOrder) :
    ((sweepOrder submitOk nowMs o).2 ≠ [] ↔
      (o.status = OrderStatus.pending ∧
       (nowMs : Int) > (o.timelock : Int) * 1000 - (ORDER_TIMEOUT_BUFFER : Int) * 1000 ∧
       o.sourceChain = Chain.ethereum)) ∧
    ((sweepOrder submitOk nowMs o).1.status = OrderStatus.refunded ↔
      (o.status = OrderStatus.refunded ∨
       (o.status = OrderStatus.pending ∧
        (nowMs : Int) > (o.timelock : Int) * 1000 - (ORDER_TIMEOUT_BUFFER : Int) * 1000 ∧
        (o.sourceChain = Chain.monad ∨ submitOk o.orderHash = true)))) := by
  unfold sweepOrder processRefund timeoutExpired
  split_ifs with h1 h2 h3 <;>
    cases hc : o.sourceChain <;> cases hs : o.status <;> simp_all

/-! ## Claim C9 — redelivery of the same event -/

/-- C9 (amended): `processEvent` never touches the resolver's in-memory
state, so the state after a duplicate delivery trivially equals the state
after the first; but there is no `(chain, txId, logIndex)` de-dup set —
the submitted-transaction list of a double delivery is exactly the single
delivery's submissions twice, so a duplicated `HtlcWithdrawn` re-submits
the withdraw on the counterpart chain. -/
theorem event_redelivery_behaviour (st : ResolverState) (e : HTLCEventR) :
    (processEvent st e).1 = st ∧
    (processEvents st [e, e]).1 = (processEvents st [e]).1 ∧
    (processEvents st [e, e]).2 = (processEvents st [e]).2 ++ (processEvents st [e]).2 := by
  cases ht : e.type <;> cases hs : e.secret <;>
    simp [processEvents, processEvent, ht, hs]

/-- A withdrawn event carrying secret 7, as observed on ethereum with
transaction hash 9 and log index 0. -/
def dupEvent : HTLCEventR :=
  ⟨HTLCEventType.withdrawn, 5, Chain.ethereum, 1, 9, 0, some 7⟩

/-- C9 counterexample: delivering the same withdrawn event twice (same
chain, txId 9, logIndex 0) makes the resolver submit the counterpart-chain
withdraw transaction twice — the handling of the second delivery is not
suppressed by any de-dup key. -/
theorem duplicate_withdrawn_event_double_submits :
    (processEvents ⟨[], []⟩ [dupEvent, dupEvent]).2 =
      [⟨Chain.monad, 5, 7⟩, ⟨Chain.monad, 5, 7⟩] ∧
    (processEvents ⟨[], []⟩ [dupEvent]).2 = [⟨Chain.monad, 5, 7⟩] := by
  decide

/-! ## Claim C10 — `resolveAtomicSwap` -/

/-- C10: `resolveAtomicSwap` errors leaving the state untouched when no
pending order exists for the hash or when `keccak256(utf8(secret))`
differs from the stored hashlock; and on success the looked-up order had a
matching hashlock, the secret is stored under the order hash, and the
order is marked resolved carrying the secret. -/
theorem resolveAtomicSwap_characterisation (kU : String → Word) (execOk : Bool)
    (nowMs : Nat) (st : ResolverState) (oh : Word) (s : String) :
    (st.pendingOrders.lookup oh = none →
      resolveAtomicSwap kU execOk nowMs st oh s = .error ("No pending order found", st)) ∧
    (∀ o, st.pendingOrders.lookup oh = some o → kU s ≠ o.hashlock →
      resolveAtomicSwap kU execOk nowMs st oh s = .error ("Invalid secret provided", st)) ∧
    (∀ st', resolveAtomicSwap kU execOk nowMs st oh s = .ok st' →
      ∃ o, st.pendingOrders.lookup oh = some o ∧ kU s = o.hashlock ∧
        st'.secretStore.lookup oh = some s ∧
        st'.pendingOrders.lookup oh =
          some { o with status := OrderStatus.resolved, secret := some s,
                        resolvedAt := some nowMs }) := by
  refine ⟨?_, ?_, ?_⟩
  · intro hnone
    unfold resolveAtomicSwap
    rw [hnone]
  · intro o ho hne
    unfold resolveAtomicSwap
    rw [ho]
    simp [hne]
  · intro st' hok
    unfold resolveAtomicSwap at hok
    cases ho : st.pendingOrders.lookup oh with
    | none => rw [ho] at hok; exact Except.noConfusion hok
    | some o =>
      rw [ho] at hok
      dsimp only at hok
      split_ifs at hok with h1 h2 <;> try exact Except.noConfusion hok
      injection hok with hok
      subst hok
      refine ⟨o, rfl, not_not.mp h1, ?_, ?_⟩
      · exact lookup_mapSet_self _ _ _
      · exact lookup_mapSet_self _ _ _

/-- A resolver state with one pending order of hashlock 42. -/
def rstC10 : ResolverState :=
  ⟨[(1, ⟨1, Chain.ethereum, Chain.monad, 0, 0, 1, 1, 42, 7200, 0, 0,
         OrderStatus.pending, 0, none, none, none⟩)], []⟩

/-- Witness for C10 at a concrete input: a matching secret resolves order
1 of `rstC10`, storing the secret and marking the order resolved. -/
theorem resolveAtomicSwap_characterisation_witness :
    (resolveAtomicSwap (fun _ => 42) true 99 rstC10 1 "s").toOption.map
      (fun st => (st.secretStore.lookup 1,
                  (st.pendingOrders.lookup 1).map (fun o => o.status))) =
      some (some "s", some OrderStatus.resolved) := by
  have hIsOk : (resolveAtomicSwap (fun _ => 42) true 99 rstC10 1 "s").isOk = true := by
    decide
  cases hE : resolveAtomicSwap (fun _ => 42) true 99 rstC10 1 "s" with
  | error e =>
    rw [hE] at hIsOk
    exact absurd hIsOk (by simp [Except.isOk, Except.toBool])
  | ok st' =>
    obtain ⟨o, ho, hk, hsec, hord⟩ :=
      (resolveAtomicSwap_characterisation (fun _ => 42) true 99 rstC10 1 "s").2.2 st' hE
    simp [hE]
    exact ⟨st', rfl, hsec, ⟨_, hord, rfl⟩⟩

/-! ## Claim C4 — cursor advancement in the event monitor -/

/-- C4 counterexample: with the chain tip at block 10 and both fetchers
failing on every range (the `Decode` situation), `monitorEthereumEvents`
still advances the cursor from 0 to 7 = 10 − K: the failure is swallowed
inside the processing helpers and the cursor is moved past every
unprocessed block. -/
theorem cursor_advances_past_failed_fetch :
    (monitorEthereumEvents true (fun _ _ => .error "decode failure")
       (fun _ _ => .error "decode failure") (some 10) ⟨0, 0⟩).lastEthereum = 7 ∧
    (0 : Nat) < 7 := by
  decide

/-- C4 (amended): the cursor movement of `monitorEthereumEvents` is
entirely independent of the fetchers' outcomes — the resulting state is
the same for any two fetcher pairs; whenever new confirmed blocks exist
the cursor jumps to `min(confirmed, cursor + 100)` unconditionally, and
only the no-new-blocks guard (or a `getBlockNumber` failure) leaves it
unchanged. -/
theorem cursor_advance_fetch_independent (fA fH fA' fH' : LogFetch)
    (current : Nat) (st : MonitorState) :
    monitorEthereumEvents true fA fH (some current) st =
      monitorEthereumEvents true fA' fH' (some current) st ∧
    (st.lastEthereum < current - BLOCK_CONFIRMATIONS →
      (monitorEthereumEvents true fA fH (some current) st).lastEthereum =
        min (current - BLOCK_CONFIRMATIONS) (st.lastEthereum + MAX_BLOCKS_PER_QUERY)) ∧
    (current - BLOCK_CONFIRMATIONS ≤ st.lastEthereum →
      monitorEthereumEvents true fA fH (some current) st = st) := by
  refine ⟨rfl, ?_, ?_⟩
  · intro hlt
    have hne : ¬ (current - BLOCK_CONFIRMATIONS ≤ st.lastEthereum) :=
      not_le.mpr hlt
    simp only [monitorEthereumEvents, BLOCK_CONFIRMATIONS, MAX_BLOCKS_PER_QUERY] at hne ⊢
    simp [hne]
  · intro hle
    simp only [monitorEthereumEvents, BLOCK_CONFIRMATIONS] at hle ⊢
    simp [hle]

/-- Witness for C4 at a concrete input: tip 10, fresh cursor 0, succeeding
fetchers — the cursor advances to `min(7, 100)`. -/
theorem cursor_advance_fetch_independent_witness :
    (monitorEthereumEvents true (fun _ _ => .ok []) (fun _ _ => .ok [])
       (some 10) ⟨0, 0⟩).lastEthereum =
      min (10 - BLOCK_CONFIRMATIONS) (0 + MAX_BLOCKS_PER_QUERY) :=
  (cursor_advance_fetch_independent (fun _ _ => .ok []) (fun _ _ => .ok [])
    (fun _ _ => .ok []) (fun _ _ => .ok []) 10 ⟨0, 0⟩).2.1 (by decide)

end FMB
